import Mathlib

/-!
Shallow embedding of the emilia-english adaptive flashcard engine
(scripts/progress.js, scripts/queue.js, scripts/app.js, scripts/storage.js,
scripts/scheduleMastery.js, scripts/letters.js, scripts/utils.js,
scripts/config.js).

JavaScript `Map`s are modelled as insertion-ordered association lists
(`Map.set` replaces in place at the first matching key, otherwise appends),
numbers as `Nat`/`Int`/`ℚ` where the source keeps them integral or compares
ratios, and platform effects (`Date.now`, `Math.random`, `localStorage`,
`JSON.parse`) as explicit state fields or function parameters.
-/

/-- utils.js `clamp` on naturals: `Math.min(Math.max(value, min), max)`. -/
def clampNat (value lo hi : Nat) : Nat :=
  min (max value lo) hi

/-- utils.js `clamp` on integers: `Math.min(Math.max(value, min), max)`. -/
def clampInt (value lo hi : Int) : Int :=
  min (max value lo) hi

/-- `Map.get`: first binding of the key in the insertion-ordered list. -/
def alGet {α : Type} : List (String × α) → String → Option α
  | [], _ => none
  | (k, v) :: rest, key => if k = key then some v else alGet rest key

/-- `Map.set`: replace the first binding in place, otherwise append. -/
def alSet {α : Type} : List (String × α) → String → α → List (String × α)
  | [], key, value => [(key, value)]
  | (k, v) :: rest, key, value =>
      if k = key then (key, value) :: rest else (k, v) :: alSet rest key value

/-- JS `Set.add` modelled on an insertion-ordered duplicate-free list. -/
def listInsert (l : List String) (x : String) : List String :=
  if l.contains x then l else l ++ [x]

/-- config.js `MASTERy_RULES.MIN_ATTEMPTS`. -/
def MIN_ATTEMPTS : Nat := 4

/-- config.js `MASTERy_RULES.RECENCY_WINDOW`. -/
def RECENCY_WINDOW : Nat := 6

/-- config.js `MASTERy_RULES.ACCURACY_THRESHOLD` (0.85; exact for the
ratios `k/w`, `w ≤ 6`, that the code ever compares against it). -/
def ACCURACY_THRESHOLD : ℚ := 85 / 100

/-- config.js `SESSION_LIMITS`. -/
def MIN_LENGTH : Nat := 5

/-- config.js `SESSION_LIMITS.MAX_LENGTH`. -/
def MAX_LENGTH : Nat := 20

/-- config.js `SESSION_LIMITS.MAX_NEW_WORDS_PER_SESSION`. -/
def MAX_NEW_WORDS_PER_SESSION : Nat := 3

/-- config.js `SESSION_LIMITS.MAX_REPEAT_PASSES`. -/
def MAX_REPEAT_PASSES : Nat := 2

/-- config.js `SESSION_LIMITS.MAX_OCCURRENCES_PER_WORD`. -/
def MAX_OCCURRENCES_PER_WORD : Nat := 3

/-- config.js `DEPRECATED_FORMAT_IDS`. -/
def DEPRECATED_FORMAT_IDS : List String :=
  ["translation_to_text", "image_to_text", "audio_to_text",
   "text_to_translation", "text_to_image", "text_to_audio"]

/-- config.js `LETTER_ALPHABET`. -/
def LETTER_ALPHABET : List Char :=
  "abcdefghijklmnopqrstuvwxyz".toList

/-- scheduleMastery.js `REVIEW_INTERVALS` (days between reviews). -/
def REVIEW_INTERVALS : List Nat := [0, 1, 3, 7, 14]

/-- One record of the append-only attempt history (app.js `recordAttempt`
entry shape; missing/non-string fields are read as the empty string, the
JS falsy default relevant to the guards in the source). -/
structure HistoryEntry where
  timestamp : String
  wordId : String
  questionFormat : String
  answerFormat : String
  formatId : String
  selectedOptionId : String
  result : String
  attemptDurationMs : Int
  wasHintUsed : Bool
  deriving Repr, DecidableEq

/-- Per-tuple performance counters (progress.js). `lastAttempt` is `none`
until the first recorded attempt assigns it. -/
structure PerfRecord where
  attempts : Nat
  correct : Nat
  incorrect : Nat
  streak : Int
  lastAttempt : Option String
  recent : List String
  deriving Repr, DecidableEq

/-- The fresh record both aggregation paths start from
(`attempts: 0, correct: 0, incorrect: 0, streak: 0, recent: []`). -/
def emptyPerfRecord : PerfRecord :=
  { attempts := 0, correct := 0, incorrect := 0, streak := 0,
    lastAttempt := none, recent := [] }

/-- progress.js `createDefaultOptionState` shape. -/
structure OptionState where
  level : Int
  successRun : Nat
  failureRun : Nat
  deriving Repr, DecidableEq

/-- scheduleMastery.js review-schedule entry. -/
structure ReviewEntry where
  intervalIndex : Nat
  nextReview : Nat
  deriving Repr, DecidableEq

/-- progress.js `updateSessionStats` breakdown entry. -/
structure BreakdownEntry where
  wordId : String
  formatId : String
  questionFormat : String
  answerFormat : String
  attempts : Nat
  correct : Nat
  deriving Repr, DecidableEq

/-- progress.js `createEmptySessionStats` shape. -/
structure SessionStats where
  total : Nat
  correct : Nat
  incorrect : Nat
  formatBreakdown : List (String × BreakdownEntry)
  deriving Repr, DecidableEq

/-- Structural requirements of a format (config.js `requires`). -/
structure FormatRequires where
  translation : Bool
  image : Bool
  audio : Bool
  initialLetter : Bool
  deriving Repr, DecidableEq

/-- An exercise format from the config.js catalog. -/
structure Format where
  id : String
  promptType : String
  answerType : String
  requires : FormatRequires
  deriving Repr, DecidableEq

/-- A word record (data/words.json); absent optional assets are the empty
string, matching the JS falsiness checks on them. -/
structure Word where
  id : String
  english : String
  hebrew : String
  image : String
  audio : String
  initialLetter : String
  distractorWordIds : List String
  deriving Repr, DecidableEq

/-- The engine-relevant slice of state.js, plus the platform clock
(`Date.now()` as `now`, `new Date().toISOString()` as `nowIso`). -/
structure AppState where
  words : List Word
  formats : List Format
  history : List HistoryEntry
  performanceMap : List (String × PerfRecord)
  optionStateMap : List (String × OptionState)
  wordOptionFloor : List (String × Int)
  reviewSchedule : List (String × ReviewEntry)
  sessionStats : Option SessionStats
  sessionLength : Nat
  now : Nat
  nowIso : String
  deriving Repr, DecidableEq

/-- progress.js `buildPerformanceKey`. -/
def buildPerformanceKey (wordId formatId : String) : String :=
  wordId ++ "::" ++ formatId

/-- progress.js `updateRecentResults`: append, then drop the oldest entry
once the window exceeds `RECENCY_WINDOW`. -/
def updateRecentResults (recent : List String) (result : String) : List String :=
  let copy := recent ++ [result]
  if RECENCY_WINDOW < copy.length then copy.drop 1 else copy

/-- progress.js `isTupleMastered`: recency-windowed accuracy gate. -/
def isTupleMastered (stats : Option PerfRecord) : Bool :=
  match stats with
  | none => false
  | some s =>
      let recent := s.recent
      let windowSize := min RECENCY_WINDOW recent.length
      let recentAccuracy : ℚ :=
        if windowSize = 0 then 0
        else (((recent.drop (recent.length - windowSize)).filter
                (fun result => result = "correct")).length : ℚ) / (windowSize : ℚ)
      decide (ACCURACY_THRESHOLD ≤ recentAccuracy) && decide (MIN_ATTEMPTS ≤ s.attempts)

/-- progress.js `wordSupportsFormat`. -/
def wordSupportsFormat (word : Word) (format : Format) : Bool :=
  if format.requires.translation && word.hebrew = "" then false
  else if format.requires.image && word.image = "" then false
  else if format.requires.audio && word.audio = "" then false
  else if format.requires.initialLetter && word.initialLetter = "" then false
  else true

/-- progress.js `createDefaultOptionState`. -/
def createDefaultOptionState : OptionState :=
  { level := 1, successRun := 0, failureRun := 0 }

/-- progress.js `applyOptionStateTransition` (pure version returning the
updated state object). -/
def applyOptionStateTransition (optionState : OptionState) (wasCorrect : Bool) : OptionState :=
  let s :=
    if wasCorrect then
      let s := { optionState with failureRun := 0, successRun := optionState.successRun + 1 }
      if s.level = 1 ∧ 1 ≤ s.successRun then
        { s with level := 2, successRun := 0 }
      else if s.level = 2 ∧ 2 ≤ s.successRun then
        { s with level := 3, successRun := 0 }
      else if s.level = 3 ∧ 2 ≤ s.successRun then
        { s with level := 4, successRun := 0 }
      else if s.level = 4 then
        { s with successRun := min s.successRun 2 }
      else s
    else
      let s := { optionState with successRun := 0, failureRun := optionState.failureRun + 1 }
      if 3 ≤ s.level ∧ 2 ≤ s.failureRun then
        { s with level := 2, failureRun := 0 }
      else
        { s with failureRun := min s.failureRun 2 }
  { s with level := clampInt s.level 1 4 }

/-- progress.js `getOptionCountForTuple`. -/
def getOptionCountForTuple (st : AppState) (wordId formatId : String) : Int :=
  let key := buildPerformanceKey wordId formatId
  let baseLevel :=
    match alGet st.optionStateMap key with
    | some entry => entry.level
    | none => 1
  let floor := (alGet st.wordOptionFloor wordId).getD 1
  clampInt (max baseLevel floor) 1 4

/-- scheduleMastery.js `scheduleMasteryReview`: advance or regress the
interval index and recompute the next-review timestamp, every attempt. -/
def scheduleMasteryReview (st : AppState) (wordId formatId : String) (mastered : Bool) : AppState :=
  let key := buildPerformanceKey wordId formatId
  let entry := (alGet st.reviewSchedule key).getD
    { intervalIndex := 0, nextReview := st.now }
  let entry :=
    if mastered then
      { entry with intervalIndex := clampNat (entry.intervalIndex + 1) 0 (REVIEW_INTERVALS.length - 1) }
    else
      { entry with intervalIndex := clampNat (entry.intervalIndex - 1) 0 (REVIEW_INTERVALS.length - 1) }
  let days := REVIEW_INTERVALS.getD entry.intervalIndex 0
  let entry := { entry with nextReview := st.now + days * 24 * 60 * 60 * 1000 }
  { st with reviewSchedule := alSet st.reviewSchedule key entry }

/-- scheduleMastery.js `shouldScheduleMastered`. -/
def shouldScheduleMastered (st : AppState) (wordId formatId : String) : Bool :=
  let key := buildPerformanceKey wordId formatId
  match alGet st.reviewSchedule key with
  | none => true
  | some entry => decide (entry.nextReview ≤ st.now)

/-- progress.js `buildPerformanceMap`: replay the whole history log into a
fresh per-tuple map, skipping entries with a falsy word or format id. -/
def buildPerformanceMap (historyEntries : List HistoryEntry) : List (String × PerfRecord) :=
  historyEntries.foldl
    (fun map entry =>
      if entry.wordId = "" ∨ entry.formatId = "" then map
      else
        let key := buildPerformanceKey entry.wordId entry.formatId
        let existing := (alGet map key).getD emptyPerfRecord
        let existing :=
          { existing with
              attempts := existing.attempts + 1,
              correct := if entry.result = "correct" then existing.correct + 1 else existing.correct,
              incorrect := if entry.result = "correct" then existing.incorrect else existing.incorrect + 1,
              streak := if entry.result = "correct" then max (existing.streak + 1) 1
                        else min (existing.streak - 1) (-1),
              lastAttempt := some entry.timestamp,
              recent := updateRecentResults existing.recent entry.result }
        alSet map key existing)
    []

/-- progress.js `updatePerformanceMapWithEntry`: incremental single-entry
update of the live performance map, then the unconditional call to
`scheduleMasteryReview` with the updated record's mastery flag. -/
def updatePerformanceMapWithEntry (st : AppState) (entry : HistoryEntry) : AppState :=
  let key := buildPerformanceKey entry.wordId entry.formatId
  let existing := (alGet st.performanceMap key).getD emptyPerfRecord
  let existing :=
    { existing with
        attempts := existing.attempts + 1,
        correct := if entry.result = "correct" then existing.correct + 1 else existing.correct,
        incorrect := if entry.result = "correct" then existing.incorrect else existing.incorrect + 1,
        streak := if entry.result = "correct" then max (existing.streak + 1) 1
                  else min (existing.streak - 1) (-1),
        lastAttempt := some entry.timestamp,
        recent := updateRecentResults existing.recent entry.result }
  let st := { st with performanceMap := alSet st.performanceMap key existing }
  scheduleMasteryReview st entry.wordId entry.formatId (isTupleMastered (some existing))

/-- progress.js `updateSessionStats`. -/
def updateSessionStats (st : AppState) (entry : HistoryEntry) : AppState :=
  match st.sessionStats with
  | none => st
  | some stats =>
      let stats := { stats with
        total := stats.total + 1,
        correct := if entry.result = "correct" then stats.correct + 1 else stats.correct,
        incorrect := if entry.result = "correct" then stats.incorrect else stats.incorrect + 1 }
      let key := buildPerformanceKey entry.wordId entry.formatId
      let breakdownEntry := (alGet stats.formatBreakdown key).getD
        { wordId := entry.wordId, formatId := entry.formatId,
          questionFormat := entry.questionFormat, answerFormat := entry.answerFormat,
          attempts := 0, correct := 0 }
      let breakdownEntry := { breakdownEntry with
        attempts := breakdownEntry.attempts + 1,
        correct := if entry.result = "correct" then breakdownEntry.correct + 1
                   else breakdownEntry.correct }
      let stats := { stats with
        formatBreakdown := alSet stats.formatBreakdown key breakdownEntry }
      { st with sessionStats := some stats }

/-- progress.js `updateOptionStateWithEntry`. -/
def updateOptionStateWithEntry (st : AppState) (entry : HistoryEntry) : AppState :=
  if entry.wordId = "" ∨ entry.formatId = "" then st
  else
    let key := buildPerformanceKey entry.wordId entry.formatId
    let optionState := (alGet st.optionStateMap key).getD createDefaultOptionState
    let optionState := applyOptionStateTransition optionState (entry.result == "correct")
    { st with optionStateMap := alSet st.optionStateMap key optionState }

/-- Arguments of app.js `recordAttempt`. -/
structure AttemptArgs where
  wordId : String
  format : Format
  selectedOptionId : String
  isCorrect : Bool
  durationMs : Int
  wasHintUsed : Bool
  deriving Repr, DecidableEq

/-- app.js `recordAttempt`: build the history entry, append it to the log
(the `persistHistory` write is an external key-value side effect), and feed
it to the performance map, session stats, and option-state machine. -/
def recordAttempt (st : AppState) (a : AttemptArgs) : AppState :=
  let entry : HistoryEntry :=
    { timestamp := st.nowIso,
      wordId := a.wordId,
      questionFormat := a.format.promptType,
      answerFormat := a.format.answerType,
      formatId := a.format.id,
      selectedOptionId := a.selectedOptionId,
      result := if a.isCorrect then "correct" else "incorrect",
      attemptDurationMs := a.durationMs,
      wasHintUsed := a.wasHintUsed }
  let st := { st with history := st.history ++ [entry] }
  let st := updatePerformanceMapWithEntry st entry
  let st := updateSessionStats st entry
  updateOptionStateWithEntry st entry

/-- Per-word progress tallies (progress.js `buildWordProgressMap` values). -/
structure WordProgress where
  totalFormats : Nat
  attemptedFormats : Nat
  pendingFormats : Nat
  masteredFormats : Nat
  freshFormats : Nat
  deriving Repr, DecidableEq

/-- The all-zero progress entry seeded for every word. -/
def emptyWordProgress : WordProgress :=
  { totalFormats := 0, attemptedFormats := 0, pendingFormats := 0,
    masteredFormats := 0, freshFormats := 0 }

/-- progress.js `buildWordProgressMap`: seed a zero entry per word, then
tally every supported (word, format) tuple into fresh / attempted /
mastered / pending buckets. -/
def buildWordProgressMap (st : AppState) : List (String × WordProgress) :=
  let seeded := st.words.foldl (fun map word => alSet map word.id emptyWordProgress) []
  st.words.foldl
    (fun map word =>
      st.formats.foldl
        (fun map format =>
          if !(wordSupportsFormat word format) then map
          else
            let entry := (alGet map word.id).getD emptyWordProgress
            let entry := { entry with totalFormats := entry.totalFormats + 1 }
            let key := buildPerformanceKey word.id format.id
            match alGet st.performanceMap key with
            | none => alSet map word.id { entry with freshFormats := entry.freshFormats + 1 }
            | some stats =>
                if stats.attempts = 0 then
                  alSet map word.id { entry with freshFormats := entry.freshFormats + 1 }
                else
                  let entry := { entry with attemptedFormats := entry.attemptedFormats + 1 }
                  if isTupleMastered (some stats) then
                    alSet map word.id { entry with masteredFormats := entry.masteredFormats + 1 }
                  else
                    alSet map word.id { entry with pendingFormats := entry.pendingFormats + 1 })
        map)
    seeded

/-- A queue candidate (queue.js `allExercises` element). -/
structure Candidate where
  word : Word
  format : Format
  stats : PerfRecord
  priorityScore : ℚ
  deriving Repr, DecidableEq

/-- queue.js `buildSessionQueue` step 1: enumerate every supported,
non-deprecated (word, format) pair with its stats and priority score. -/
def allExercisesFor (st : AppState) : List Candidate :=
  st.words.foldl
    (fun acc word =>
      st.formats.foldl
        (fun acc format =>
          if DEPRECATED_FORMAT_IDS.contains format.id then acc
          else if !(wordSupportsFormat word format) then acc
          else
            let key := buildPerformanceKey word.id format.id
            let stats := (alGet st.performanceMap key).getD emptyPerfRecord
            let successRate : ℚ :=
              if stats.attempts = 0 then 0 else (stats.correct : ℚ) / (stats.attempts : ℚ)
            let priorityScore : ℚ := if stats.attempts = 0 then -1 else successRate
            acc ++ [{ word := word, format := format, stats := stats,
                      priorityScore := priorityScore }])
        acc)
    []

/-- The word buckets of queue.js `buildSessionQueue` step 3. -/
structure WordBuckets where
  unmasteredSet : List String
  masteredSet : List String
  newSet : List String
  deriving Repr, DecidableEq

/-- queue.js `buildSessionQueue` step 3: classify each word into the
new / unmastered / mastered-due buckets from its progress tallies. -/
def classifyWords (st : AppState) (wordProgress : List (String × WordProgress)) : WordBuckets :=
  st.words.foldl
    (fun buckets word =>
      match alGet wordProgress word.id with
      | none => buckets
      | some progress =>
          if progress.totalFormats = 0 then buckets
          else
            let dueMastered := st.formats.foldl
              (fun n format =>
                if DEPRECATED_FORMAT_IDS.contains format.id then n
                else if !(wordSupportsFormat word format) then n
                else
                  let key := buildPerformanceKey word.id format.id
                  match alGet st.performanceMap key with
                  | none => n
                  | some stats =>
                      if isTupleMastered (some stats) &&
                          shouldScheduleMastered st word.id format.id then n + 1 else n)
              0
            if progress.attemptedFormats = 0 then
              { buckets with newSet := listInsert buckets.newSet word.id }
            else if 0 < progress.pendingFormats ∨ 0 < progress.freshFormats then
              let buckets := { buckets with unmasteredSet := listInsert buckets.unmasteredSet word.id }
              if 0 < dueMastered then
                { buckets with masteredSet := listInsert buckets.masteredSet word.id }
              else buckets
            else if 0 < dueMastered then
              { buckets with masteredSet := listInsert buckets.masteredSet word.id }
            else buckets)
    { unmasteredSet := [], masteredSet := [], newSet := [] }

/-- A materialized exercise (queue.js `createExercise`): the tuple plus its
option count; the randomized option payload and fresh UUID are omitted —
the option list's length always equals `getOptionCountForTuple` when option
building succeeds. -/
structure Exercise where
  word : Word
  format : Format
  optionCount : Int
  deriving Repr, DecidableEq

/-- queue.js `createExercise` restricted to the fields above. -/
def createExercise (st : AppState) (word : Word) (format : Format) : Exercise :=
  { word := word, format := format,
    optionCount := getOptionCountForTuple st word.id format.id }

/-- Mutable selection state of queue.js `buildSessionQueue` step 4. -/
structure SelState where
  selected : List Exercise
  wordUsage : List (String × Nat)
  newWordsIntroduced : List String
  deriving Repr, DecidableEq

/-- queue.js `tryAddCandidate`: respect the session length, the new-word
cap, and the per-word occurrence cap (unless overridden). -/
def tryAddCandidate (st : AppState) (sessionLength : Nat) (sel : SelState)
    (candidate : Candidate) (isNew overrideLimit : Bool) : SelState × Bool :=
  if sessionLength ≤ sel.selected.length then (sel, false)
  else
    let wordId := candidate.word.id
    if isNew && !(sel.newWordsIntroduced.contains wordId) &&
        decide (MAX_NEW_WORDS_PER_SESSION ≤ sel.newWordsIntroduced.length) then
      (sel, false)
    else if !overrideLimit && decide (MAX_OCCURRENCES_PER_WORD ≤ (alGet sel.wordUsage wordId).getD 0) then
      (sel, false)
    else
      ({ selected := sel.selected ++ [createExercise st candidate.word candidate.format],
         wordUsage := alSet sel.wordUsage wordId ((alGet sel.wordUsage wordId).getD 0 + 1),
         newWordsIntroduced :=
           if isNew then listInsert sel.newWordsIntroduced wordId else sel.newWordsIntroduced },
       true)

/-- One pass of queue.js `takeFromSet`'s inner `for` loop; the second
component records whether any candidate was added this pass. -/
def takeFromSetPass (st : AppState) (sessionLength : Nat) (sorted : List Candidate)
    (wordSet : List String) (isNew overrideLimit : Bool) (sel : SelState) : SelState × Bool :=
  sorted.foldl
    (fun acc candidate =>
      if sessionLength ≤ acc.1.selected.length then acc
      else if !(wordSet.contains candidate.word.id) then acc
      else
        let r := tryAddCandidate st sessionLength acc.1 candidate isNew overrideLimit
        (r.1, acc.2 || r.2))
    (sel, false)

/-- The bounded outer pass loop of queue.js `takeFromSet`. -/
def takeFromSetLoop (st : AppState) (sessionLength : Nat) (sorted : List Candidate)
    (wordSet : List String) (isNew overrideLimit : Bool) : Nat → SelState → SelState
  | 0, sel => sel
  | passes + 1, sel =>
      let r := takeFromSetPass st sessionLength sorted wordSet isNew overrideLimit sel
      if sessionLength ≤ r.1.selected.length ∨ r.2 = false then r.1
      else takeFromSetLoop st sessionLength sorted wordSet isNew overrideLimit passes r.1

/-- queue.js `takeFromSet`. -/
def takeFromSet (st : AppState) (sessionLength : Nat) (sorted : List Candidate)
    (wordSet : List String) (isNew overrideLimit : Bool) (sel : SelState) : SelState :=
  if wordSet.isEmpty then sel
  else
    let passes := if overrideLimit then 1 else if isNew then 1 else MAX_REPEAT_PASSES
    takeFromSetLoop st sessionLength sorted wordSet isNew overrideLimit passes sel

/-- queue.js `buildSessionQueue`. The `sortedExercises` argument stands for
`allExercises.sort(...)` whose random tie-breaking makes it an arbitrary
permutation of the enumerated pairs; `none` models the thrown
`No valid exercise combinations available.` error. -/
def buildSessionQueue (st : AppState) (sortedExercises : List Candidate) : Option (List Exercise) :=
  let allExercises := allExercisesFor st
  if allExercises.length = 0 then none
  else
    let sessionLength := clampNat st.sessionLength MIN_LENGTH (min MAX_LENGTH sortedExercises.length)
    let wordProgress := buildWordProgressMap st
    let buckets := classifyWords st wordProgress
    let sel : SelState := { selected := [], wordUsage := [], newWordsIntroduced := [] }
    let sel :=
      if 0 < buckets.unmasteredSet.length then
        let sel := takeFromSet st sessionLength sortedExercises buckets.unmasteredSet false false sel
        let sel :=
          if sel.selected.length = 0 ∧ 0 < buckets.newSet.length then
            takeFromSet st sessionLength sortedExercises buckets.newSet true false sel
          else sel
        if sel.selected.length < sessionLength then
          takeFromSet st sessionLength sortedExercises buckets.masteredSet false false sel
        else sel
      else
        let sel := takeFromSet st sessionLength sortedExercises buckets.newSet true false sel
        if sel.selected.length < sessionLength then
          takeFromSet st sessionLength sortedExercises buckets.masteredSet false false sel
        else sel
    let sel :=
      if sel.selected.length < sessionLength then
        let sel := takeFromSet st sessionLength sortedExercises buckets.unmasteredSet false true sel
        let sel :=
          if sel.selected.length < sessionLength then
            takeFromSet st sessionLength sortedExercises buckets.newSet true true sel
          else sel
        if sel.selected.length < sessionLength then
          takeFromSet st sessionLength sortedExercises buckets.masteredSet false true sel
        else sel
      else sel
    let sel :=
      if sel.selected.length = 0 then
        sortedExercises.foldl
          (fun acc candidate =>
            if sessionLength ≤ acc.selected.length then acc
            else (tryAddCandidate st sessionLength acc candidate false true).1)
          sel
      else sel
    some (sel.selected.take sessionLength)

/-- JS `String.prototype.trim`: strip whitespace from both ends. -/
def jsTrim (value : String) : String :=
  ⟨((value.toList.dropWhile Char.isWhitespace).reverse.dropWhile Char.isWhitespace).reverse⟩

/-- letters.js `normalizeLetter`: trim, take the first character, lowercase
it, and require membership in the supported alphabet. -/
def normalizeLetter (value : String) : Option Char :=
  match (jsTrim value).toList with
  | [] => none
  | c :: _ =>
      let letter := c.toLower
      if LETTER_ALPHABET.contains letter then some letter else none

/-- letters.js `getAvailableLetters`: insertion-ordered set of normalized
initial letters across the loaded word list. -/
def getAvailableLetters (st : AppState) : List Char :=
  st.words.foldl
    (fun acc word =>
      match normalizeLetter word.initialLetter with
      | none => acc
      | some letter => if acc.contains letter then acc else acc ++ [letter])
    []

/-- One rendered letter option (queue.js `buildLetterOptions` payload). -/
structure LetterOption where
  optionId : String
  label : String
  letterValue : Char
  isCorrect : Bool
  deriving Repr, DecidableEq

/-- The `while (distractors.length < 3)` filler loop of queue.js
`buildLetterOptions`; each iteration appends one letter, so three
iterations of fuel reproduce the loop exactly. -/
def fillLetterDistractors (targetLetter : Char) : Nat → List Char → List Char
  | 0, distractors => distractors
  | fuel + 1, distractors =>
      if 3 ≤ distractors.length then distractors
      else
        let filler := (LETTER_ALPHABET.find?
          (fun letter => letter ≠ targetLetter && !(distractors.contains letter.toLower))).getD
          targetLetter
        fillLetterDistractors targetLetter fuel (distractors ++ [filler])

/-- queue.js `buildLetterOptions`. The three shuffle parameters stand for
the `shuffle(...)` calls on the available letters, the fallback pool, and
the final option list; `none` models the thrown missing-initialLetter
error. -/
def buildLetterOptions (st : AppState)
    (shuffleAvail shuffleFallback shuffleFinal : List Char → List Char)
    (word : Word) (optionCount : Nat) : Option (List LetterOption) :=
  match normalizeLetter word.initialLetter with
  | none => none
  | some targetLetter =>
      let availableLetters := (getAvailableLetters st).filter (fun letter => letter ≠ targetLetter)
      let distractors := (shuffleAvail availableLetters).take 3
      let distractors :=
        if distractors.length < 3 then
          let fallbackPool := shuffleFallback (LETTER_ALPHABET.filter
            (fun letter => letter ≠ targetLetter && !(distractors.contains letter.toLower)))
          distractors ++ fallbackPool.take (3 - distractors.length)
        else distractors
      let distractors := fillLetterDistractors targetLetter 3 distractors
      let totalOptions := clampNat optionCount 1 4
      let letters := shuffleFinal (targetLetter :: distractors.take (totalOptions - 1))
      some (letters.map (fun letter =>
        { optionId := "letter-".push letter,
          label := letter.toUpper.toString,
          letterValue := letter,
          isCorrect := decide (letter = targetLetter) }))

/-- app.js `promoteWordFloor`: raise a word's persisted option floor to
`minLevel` unless it is already at least that high (the storage write is
an external side effect). -/
def promoteWordFloor (st : AppState) (wordId : String) (minLevel : Int) : AppState :=
  let current := (alGet st.wordOptionFloor wordId).getD 1
  if minLevel ≤ current then st
  else { st with wordOptionFloor := alSet st.wordOptionFloor wordId minLevel }

/-- app.js `handleSingleOptionPromotion`: once a card with at most one
option is rendered, raise the word's floor to 2. -/
def handleSingleOptionPromotion (st : AppState) (exercise : Option Exercise) : AppState :=
  match exercise with
  | none => st
  | some e => if 1 < e.optionCount then st else promoteWordFloor st e.word.id 2

/-- JSON values as produced by `JSON.parse`. -/
inductive Json where
  | null : Json
  | bool (b : Bool) : Json
  | num (n : Int) : Json
  | str (s : String) : Json
  | arr (items : List Json) : Json
  | obj (fields : List (String × Json)) : Json

/-- Read a string-valued field of a parsed JSON object; anything else reads
as the empty string (the falsy default the source's guards rely on). -/
def getStrField (j : Json) (field : String) : String :=
  match j with
  | Json.obj fields =>
      match alGet fields field with
      | some (Json.str s) => s
      | _ => ""
  | _ => ""

/-- Read an integer-valued field of a parsed JSON object, defaulting to 0. -/
def getNumField (j : Json) (field : String) : Int :=
  match j with
  | Json.obj fields =>
      match alGet fields field with
      | some (Json.num n) => n
      | _ => 0
  | _ => 0

/-- Read a boolean field of a parsed JSON object, defaulting to false. -/
def getBoolField (j : Json) (field : String) : Bool :=
  match j with
  | Json.obj fields =>
      match alGet fields field with
      | some (Json.bool b) => b
      | _ => false
  | _ => false

/-- View a parsed history element as a `HistoryEntry` record. -/
def jsonToEntry (j : Json) : HistoryEntry :=
  { timestamp := getStrField j "timestamp",
    wordId := getStrField j "wordId",
    questionFormat := getStrField j "questionFormat",
    answerFormat := getStrField j "answerFormat",
    formatId := getStrField j "formatId",
    selectedOptionId := getStrField j "selectedOptionId",
    result := getStrField j "result",
    attemptDurationMs := getNumField j "attemptDurationMs",
    wasHintUsed := getBoolField j "wasHintUsed" }

/-- storage.js `loadHistory`: rehydrate history, the performance map, and
the option-state map; a missing key or an unparsable value (the `catch`
branch, `parseJson` returning `none`) reinitializes the empty state, and
deprecated format ids are filtered out of parsed history. -/
def loadHistory (st : AppState) (stored : Option String)
    (parseJson : String → Option Json) : AppState :=
  match stored with
  | none => { st with history := [], performanceMap := [], optionStateMap := [] }
  | some raw =>
      let hist : List HistoryEntry :=
        match parseJson raw with
        | none => []
        | some parsed =>
            match parsed with
            | Json.arr entries =>
                (entries.filter
                  (fun e => !(DEPRECATED_FORMAT_IDS.contains (getStrField e "formatId")))).map
                  jsonToEntry
            | _ => []
      let st := { st with history := hist,
                          performanceMap := buildPerformanceMap hist,
                          optionStateMap := [] }
      hist.foldl updateOptionStateWithEntry st

/-- Coerce a stored floor value as `Number(level) || 1` does (non-numeric
stored values coerce to the fallback 1). -/
def jsonNumberOr1 (j : Json) : Int :=
  match j with
  | Json.num n => if n = 0 then 1 else n
  | _ => 1

/-- storage.js `loadWordOptionFloor`: a missing key or unparsable value
(the `catch` branch) reinitializes the empty floor map; a parsed object is
read entry-wise. -/
def loadWordOptionFloor (st : AppState) (stored : Option String)
    (parseJson : String → Option Json) : AppState :=
  match stored with
  | none => { st with wordOptionFloor := [] }
  | some raw =>
      match parseJson raw with
      | none => { st with wordOptionFloor := [] }
      | some parsed =>
          match parsed with
          | Json.obj fields =>
              { st with wordOptionFloor := fields.map (fun kv => (kv.1, jsonNumberOr1 kv.2)) }
          | _ => { st with wordOptionFloor := [] }

/-- The `letter_to_image` format of the config.js catalog, used as a test
fixture (mirroring the repository's own test setup). -/
def letterImageFormat : Format :=
  { id := "letter_to_image", promptType := "letter", answerType := "image",
    requires := { translation := false, image := true, audio := false, initialLetter := true } }

/-- A minimal word fixture with an image and an initial letter. -/
def fixtureWord (i l : String) : Word :=
  { id := i, english := i, hebrew := "", image := "assets/images/w.png", audio := "",
    initialLetter := l, distractorWordIds := [] }

/-- A small concrete app state: five words with initial letters a–e and the
letter-drill format, no prior history. -/
def fixtureState : AppState :=
  { words := [fixtureWord "apple" "a", fixtureWord "bear" "b", fixtureWord "cat" "c",
              fixtureWord "dog" "d", fixtureWord "egg" "e"],
    formats := [letterImageFormat],
    history := [], performanceMap := [], optionStateMap := [], wordOptionFloor := [],
    reviewSchedule := [], sessionStats := none, sessionLength := 10,
    now := 1000, nowIso := "2026-01-01T00:00:00.000Z" }

/-- A concrete history entry for the `dog::letter_to_image` tuple. -/
def fixtureEntry (result : String) : HistoryEntry :=
  { timestamp := "2026-01-01T00:00:00.000Z", wordId := "dog",
    questionFormat := "letter", answerFormat := "image", formatId := "letter_to_image",
    selectedOptionId := "dog", result := result, attemptDurationMs := 1200,
    wasHintUsed := false }

/-- A concrete `recordAttempt` argument bundle for the same tuple. -/
def fixtureAttempt (isCorrect : Bool) : AttemptArgs :=
  { wordId := "dog", format := letterImageFormat, selectedOptionId := "dog",
    isCorrect := isCorrect, durationMs := 1200, wasHintUsed := false }

theorem alGet_alSet {α : Type} (m : List (String × α)) (k k' : String) (v : α) :
    alGet (alSet m k v) k' = if k = k' then some v else alGet m k' := by
  induction m with
  | nil =>
      by_cases h : k = k' <;> simp [alSet, alGet, h]
  | cons hd tl ih =>
      obtain ⟨k₀, v₀⟩ := hd
      by_cases h₀ : k₀ = k
      · subst h₀
        by_cases h : k₀ = k' <;> simp [alSet, alGet, h]
      · by_cases h : k₀ = k'
        · have hkk : ¬ k = k' := fun hh => h₀ (hh.trans h.symm).symm
          have hkk' : ¬ k' = k := fun hh => hkk hh.symm
          simp [alSet, alGet, h₀, h, hkk, hkk']
        · simp [alSet, alGet, h₀, h, ih]

theorem scheduleMasteryReview_performanceMap (st : AppState) (wordId formatId : String)
    (mastered : Bool) :
    (scheduleMasteryReview st wordId formatId mastered).performanceMap = st.performanceMap := rfl

theorem updateSessionStats_performanceMap (st : AppState) (e : HistoryEntry) :
    (updateSessionStats st e).performanceMap = st.performanceMap := by
  unfold updateSessionStats
  cases st.sessionStats <;> rfl

theorem updateOptionStateWithEntry_performanceMap (st : AppState) (e : HistoryEntry) :
    (updateOptionStateWithEntry st e).performanceMap = st.performanceMap := by
  unfold updateOptionStateWithEntry
  split <;> rfl

theorem updatePerformanceMapWithEntry_wordOptionFloor (st : AppState) (e : HistoryEntry) :
    (updatePerformanceMapWithEntry st e).wordOptionFloor = st.wordOptionFloor := rfl

theorem updateSessionStats_wordOptionFloor (st : AppState) (e : HistoryEntry) :
    (updateSessionStats st e).wordOptionFloor = st.wordOptionFloor := by
  unfold updateSessionStats
  cases st.sessionStats <;> rfl

theorem updateOptionStateWithEntry_wordOptionFloor (st : AppState) (e : HistoryEntry) :
    (updateOptionStateWithEntry st e).wordOptionFloor = st.wordOptionFloor := by
  unfold updateOptionStateWithEntry
  split <;> rfl

theorem recordAttempt_wordOptionFloor (st : AppState) (a : AttemptArgs) :
    (recordAttempt st a).wordOptionFloor = st.wordOptionFloor := by
  unfold recordAttempt
  rw [updateOptionStateWithEntry_wordOptionFloor, updateSessionStats_wordOptionFloor,
    updatePerformanceMapWithEntry_wordOptionFloor]

theorem foldl_recordAttempt_wordOptionFloor (attempts : List AttemptArgs) :
    ∀ st : AppState, (attempts.foldl recordAttempt st).wordOptionFloor = st.wordOptionFloor := by
  induction attempts with
  | nil => intro st; rfl
  | cons a rest ih =>
      intro st
      rw [List.foldl_cons, ih, recordAttempt_wordOptionFloor]

/-- C3: from the default option state (level 1, runs 0), two consecutive
correct outcomes are claimed to reach level 3; on the code they reach only
level 2, because the promotion from level 2 to 3 needs a fresh success run
of 2 after the promotion from level 1 reset it. -/
theorem claim_C3_counterexample :
    ¬ (List.foldl applyOptionStateTransition createDefaultOptionState [true, true]).level = 3 := by
  decide

/-- C3 (amended): from the default option state, two consecutive correct
outcomes reach exactly level 2 (not 3, and not 4); a third consecutive
correct outcome reaches level 3 (and still not 4). -/
theorem claim_C3_amended_two_correct :
    (List.foldl applyOptionStateTransition createDefaultOptionState [true, true]).level = 2 ∧
    (List.foldl applyOptionStateTransition createDefaultOptionState [true, true, true]).level = 3 ∧
    ¬ (List.foldl applyOptionStateTransition createDefaultOptionState [true, true, true]).level = 4 := by
  decide

/-- C6: on any option state with a level in the valid range 1–4, the level
stays in range; a transition only ever lowers the level on an incorrect
answer from level ≥ 3 whose failure run has reached 2 consecutive
incorrects, and it then lands exactly at level 2; in particular a single
incorrect answer at level 2 leaves the level at 2 (no demotion to 1). -/
theorem claim_C6_demotion (s : OptionState) (wasCorrect : Bool)
    (hlo : 1 ≤ s.level) (hhi : s.level ≤ 4) :
    (1 ≤ (applyOptionStateTransition s wasCorrect).level ∧
      (applyOptionStateTransition s wasCorrect).level ≤ 4) ∧
    ((applyOptionStateTransition s wasCorrect).level < s.level →
      wasCorrect = false ∧ 3 ≤ s.level ∧ 1 ≤ s.failureRun ∧
      (applyOptionStateTransition s wasCorrect).level = 2) ∧
    (s.level = 2 → (applyOptionStateTransition s false).level = 2) := by
  obtain ⟨lvl, sr, fr⟩ := s
  dsimp only [OptionState.level, OptionState.successRun, OptionState.failureRun] at hlo hhi
  refine ⟨?_, ?_, ?_⟩
  · cases wasCorrect <;>
      simp only [applyOptionStateTransition, clampInt] <;>
      split_ifs <;>
      dsimp only [OptionState.level, OptionState.successRun, OptionState.failureRun] <;>
      omega
  · cases wasCorrect
    · simp only [applyOptionStateTransition, clampInt]
      split_ifs <;>
        dsimp only [OptionState.level, OptionState.successRun, OptionState.failureRun] <;>
        intro h <;>
        exact ⟨by trivial, by omega, by omega, by omega⟩
    · simp only [applyOptionStateTransition, clampInt]
      split_ifs <;>
        dsimp only [OptionState.level, OptionState.successRun, OptionState.failureRun] <;>
        intro h <;> exact absurd h (by omega)
  · intro h2
    simp only [applyOptionStateTransition, clampInt]
    split_ifs <;>
      dsimp only [OptionState.level, OptionState.successRun, OptionState.failureRun] at * <;>
      omega

/-- Witness for C6 at a concrete in-range state: one incorrect answer at
level 2 with no prior failures keeps the level at 2. -/
theorem claim_C6_witness :
    (applyOptionStateTransition { level := 2, successRun := 1, failureRun := 0 } false).level = 2 :=
  (claim_C6_demotion { level := 2, successRun := 1, failureRun := 0 } false
    (by decide) (by decide)).2.2 rfl

theorem mastery_ratio_iff (cc ws : Nat) (h : 0 < ws) :
    (ACCURACY_THRESHOLD ≤ (cc : ℚ) / (ws : ℚ)) ↔ 17 * ws ≤ 20 * cc := by
  unfold ACCURACY_THRESHOLD
  rw [div_le_div_iff₀ (by norm_num) (by exact_mod_cast h)]
  constructor
  · intro hh
    have h2 : 85 * ws ≤ cc * 100 := by exact_mod_cast hh
    omega
  · intro hh
    have h2 : (85 : Nat) * ws ≤ cc * 100 := by omega
    exact_mod_cast h2

theorem isTupleMastered_some (s : PerfRecord) :
    isTupleMastered (some s) =
      ((decide (0 < min RECENCY_WINDOW s.recent.length) &&
        decide (17 * min RECENCY_WINDOW s.recent.length ≤
          20 * ((s.recent.drop (s.recent.length - min RECENCY_WINDOW s.recent.length)).filter
            (fun result => result = "correct")).length)) &&
       decide (MIN_ATTEMPTS ≤ s.attempts)) := by
  simp only [isTupleMastered]
  by_cases hws : min RECENCY_WINDOW s.recent.length = 0
  · have : ¬ (ACCURACY_THRESHOLD ≤ (0 : ℚ)) := by norm_num [ACCURACY_THRESHOLD]
    simp [hws, this]
  · have h0 : 0 < min RECENCY_WINDOW s.recent.length := Nat.pos_of_ne_zero hws
    simp only [if_neg hws, h0, decide_True, Bool.true_and]
    congr 1
    rw [decide_eq_decide]
    exact mastery_ratio_iff _ _ h0

set_option maxRecDepth 16384 in
/-- C2: mastery classification is false for a missing record and for a
record with zero attempts; for any present record it holds exactly when
the accuracy over the last `min(RECENCY_WINDOW, len(recent))` outcomes is
at least 0.85 (equivalently `17 * window ≤ 20 * correctInWindow` with a
non-empty window) and lifetime attempts reach `MIN_ATTEMPTS`; and the
record replayed from 30 correct answers followed by 3 incorrect ones is
not mastered even though its lifetime accuracy 30/33 exceeds 0.85. -/
theorem claim_C2_mastery :
    isTupleMastered none = false ∧
    (∀ s : PerfRecord, s.attempts = 0 → isTupleMastered (some s) = false) ∧
    (∀ s : PerfRecord,
      isTupleMastered (some s) = true ↔
        (0 < min RECENCY_WINDOW s.recent.length ∧
         17 * min RECENCY_WINDOW s.recent.length ≤
           20 * ((s.recent.drop (s.recent.length - min RECENCY_WINDOW s.recent.length)).filter
             (fun result => result = "correct")).length ∧
         MIN_ATTEMPTS ≤ s.attempts)) ∧
    isTupleMastered (alGet (buildPerformanceMap
      (List.replicate 30 (fixtureEntry "correct") ++ List.replicate 3 (fixtureEntry "incorrect")))
      "dog::letter_to_image") = false ∧
    ACCURACY_THRESHOLD <
      ((((alGet (buildPerformanceMap
          (List.replicate 30 (fixtureEntry "correct") ++
           List.replicate 3 (fixtureEntry "incorrect")))
          "dog::letter_to_image").getD emptyPerfRecord).correct : ℚ) /
        (((alGet (buildPerformanceMap
          (List.replicate 30 (fixtureEntry "correct") ++
           List.replicate 3 (fixtureEntry "incorrect")))
          "dog::letter_to_image").getD emptyPerfRecord).attempts : ℚ)) := by
  have hrec : alGet (buildPerformanceMap
      (List.replicate 30 (fixtureEntry "correct") ++ List.replicate 3 (fixtureEntry "incorrect")))
      "dog::letter_to_image" =
      some { attempts := 33, correct := 30, incorrect := 3, streak := -3,
             lastAttempt := some "2026-01-01T00:00:00.000Z",
             recent := ["correct", "correct", "correct", "incorrect", "incorrect", "incorrect"] } := by
    decide
  refine ⟨rfl, ?_, ?_, ?_, ?_⟩
  · intro s h
    rw [isTupleMastered_some]
    simp [h, MIN_ATTEMPTS]
  · intro s
    rw [isTupleMastered_some]
    simp only [Bool.and_eq_true, decide_eq_true_eq]
    constructor
    · rintro ⟨⟨h0, ha⟩, hb⟩
      exact ⟨h0, ha, hb⟩
    · rintro ⟨h0, ha, hb⟩
      exact ⟨⟨h0, ha⟩, hb⟩
  · rw [hrec, isTupleMastered_some]
    decide
  · rw [hrec]
    norm_num [ACCURACY_THRESHOLD, emptyPerfRecord]

/-- Witness for C2 at a concrete record: the fresh zero-attempt record is
not mastered. -/
theorem claim_C2_witness : isTupleMastered (some emptyPerfRecord) = false :=
  claim_C2_mastery.2.1 emptyPerfRecord rfl

theorem foldl_update_performanceMap (entries : List HistoryEntry) :
    ∀ st : AppState, (∀ e ∈ entries, ¬ e.wordId = "" ∧ ¬ e.formatId = "") →
      (entries.foldl updatePerformanceMapWithEntry st).performanceMap =
        entries.foldl
          (fun map entry =>
            if entry.wordId = "" ∨ entry.formatId = "" then map
            else
              let key := buildPerformanceKey entry.wordId entry.formatId
              let existing := (alGet map key).getD emptyPerfRecord
              let existing :=
                { existing with
                    attempts := existing.attempts + 1,
                    correct := if entry.result = "correct" then existing.correct + 1 else existing.correct,
                    incorrect := if entry.result = "correct" then existing.incorrect else existing.incorrect + 1,
                    streak := if entry.result = "correct" then max (existing.streak + 1) 1
                              else min (existing.streak - 1) (-1),
                    lastAttempt := some entry.timestamp,
                    recent := updateRecentResults existing.recent entry.result }
              alSet map key existing)
          st.performanceMap := by
  induction entries with
  | nil =>
      intro st h
      rfl
  | cons e rest ih =>
      intro st h
      obtain ⟨h1, h2⟩ := h e (List.mem_cons_self e rest)
      rw [List.foldl_cons, List.foldl_cons,
        ih _ (fun x hx => h x (List.mem_cons_of_mem e hx))]
      congr 1
      rw [if_neg (fun hor => hor.elim h1 h2)]
      rfl

/-- C1: for a well-formed history log (every entry carrying a word id, a
format id, and a result), replaying the whole log through
`buildPerformanceMap` yields exactly the performance map obtained by
folding the incremental `updatePerformanceMapWithEntry` over the same
entries in order, starting from a state with an empty performance map —
the maps are equal as a whole, so every tuple key carries identical
attempts, correct, incorrect, streak, lastAttempt, and recent fields. -/
theorem claim_C1_replay_equivalence (entries : List HistoryEntry) (st0 : AppState)
    (hmap : st0.performanceMap = [])
    (hwf : ∀ e ∈ entries, ¬ e.wordId = "" ∧ ¬ e.formatId = "" ∧ ¬ e.result = "") :
    (entries.foldl updatePerformanceMapWithEntry st0).performanceMap =
      buildPerformanceMap entries := by
  rw [foldl_update_performanceMap entries st0
    (fun e he => ⟨(hwf e he).1, (hwf e he).2.1⟩), hmap]
  rfl

/-- Witness for C1 on a concrete two-entry log replayed over the fixture
state. -/
theorem claim_C1_witness :
    (([fixtureEntry "correct", fixtureEntry "incorrect"].foldl
        updatePerformanceMapWithEntry fixtureState)).performanceMap =
      buildPerformanceMap [fixtureEntry "correct", fixtureEntry "incorrect"] :=
  claim_C1_replay_equivalence [fixtureEntry "correct", fixtureEntry "incorrect"]
    fixtureState rfl (by decide)

theorem updatePerformanceMapWithEntry_inv (st : AppState) (e : HistoryEntry)
    (h : ∀ k r, alGet st.performanceMap k = some r → r.attempts = r.correct + r.incorrect) :
    ∀ k r, alGet (updatePerformanceMapWithEntry st e).performanceMap k = some r →
      r.attempts = r.correct + r.incorrect := by
  intro k r hr
  rw [show (updatePerformanceMapWithEntry st e).performanceMap =
      alSet st.performanceMap (buildPerformanceKey e.wordId e.formatId) _ from rfl,
    alGet_alSet] at hr
  by_cases hk : buildPerformanceKey e.wordId e.formatId = k
  · rw [if_pos hk] at hr
    obtain rfl := Option.some.inj hr
    have hbase : ((alGet st.performanceMap (buildPerformanceKey e.wordId e.formatId)).getD
        emptyPerfRecord).attempts =
        ((alGet st.performanceMap (buildPerformanceKey e.wordId e.formatId)).getD
          emptyPerfRecord).correct +
        ((alGet st.performanceMap (buildPerformanceKey e.wordId e.formatId)).getD
          emptyPerfRecord).incorrect := by
      cases hg : alGet st.performanceMap (buildPerformanceKey e.wordId e.formatId) with
      | none => simp [hg, emptyPerfRecord]
      | some r0 =>
          have := h _ r0 hg
          simp [hg, this]
    by_cases hres : e.result = "correct" <;> simp [hres] <;> omega
  · rw [if_neg hk] at hr
    exact h _ _ hr

theorem recordAttempt_inv (st : AppState) (a : AttemptArgs)
    (h : ∀ k r, alGet st.performanceMap k = some r → r.attempts = r.correct + r.incorrect) :
    ∀ k r, alGet (recordAttempt st a).performanceMap k = some r →
      r.attempts = r.correct + r.incorrect := by
  intro k r hr
  simp only [recordAttempt, updateOptionStateWithEntry_performanceMap,
    updateSessionStats_performanceMap] at hr
  exact updatePerformanceMapWithEntry_inv _ _ (fun k' r' hg => h k' r' hg) k r hr

/-- C8: after any finite sequence of recorded attempts starting from a
state whose performance map satisfies `attempts = correct + incorrect` for
every present tuple (in particular, the empty map), every performance
record still satisfies `attempts = correct + incorrect` exactly. -/
theorem claim_C8_attempts_sum (attempts : List AttemptArgs) :
    ∀ st0 : AppState,
      (∀ k r, alGet st0.performanceMap k = some r → r.attempts = r.correct + r.incorrect) →
      ∀ k r, alGet (attempts.foldl recordAttempt st0).performanceMap k = some r →
        r.attempts = r.correct + r.incorrect := by
  induction attempts with
  | nil =>
      intro st0 h0
      exact h0
  | cons a rest ih =>
      intro st0 h0
      rw [List.foldl_cons]
      exact ih _ (recordAttempt_inv st0 a h0)

/-- Witness for C8: two concrete attempts on the fixture state leave the
`dog::letter_to_image` record with attempts equal to correct plus
incorrect. -/
theorem claim_C8_witness :
    ((alGet ([fixtureAttempt true, fixtureAttempt false].foldl recordAttempt
        fixtureState).performanceMap "dog::letter_to_image").getD emptyPerfRecord).attempts =
      ((alGet ([fixtureAttempt true, fixtureAttempt false].foldl recordAttempt
        fixtureState).performanceMap "dog::letter_to_image").getD emptyPerfRecord).correct +
      ((alGet ([fixtureAttempt true, fixtureAttempt false].foldl recordAttempt
        fixtureState).performanceMap "dog::letter_to_image").getD emptyPerfRecord).incorrect :=
  claim_C8_attempts_sum [fixtureAttempt true, fixtureAttempt false] fixtureState
    (fun k r hr => by simp [fixtureState, alGet] at hr)
    "dog::letter_to_image" _ (by rfl)

theorem scheduleMasteryReview_lookup (st : AppState) (wordId formatId : String) (m : Bool) :
    alGet (scheduleMasteryReview st wordId formatId m).reviewSchedule
        (buildPerformanceKey wordId formatId) =
      some (
        let entry := (alGet st.reviewSchedule (buildPerformanceKey wordId formatId)).getD
          { intervalIndex := 0, nextReview := st.now }
        let entry :=
          if m then { entry with intervalIndex := clampNat (entry.intervalIndex + 1) 0 (REVIEW_INTERVALS.length - 1) }
          else { entry with intervalIndex := clampNat (entry.intervalIndex - 1) 0 (REVIEW_INTERVALS.length - 1) }
        { entry with nextReview := st.now + (REVIEW_INTERVALS.getD entry.intervalIndex 0) * 24 * 60 * 60 * 1000 }) := by
  simp only [scheduleMasteryReview]
  rw [alGet_alSet, if_pos rfl]

theorem updatePerformanceMapWithEntry_review_split (st : AppState) (e : HistoryEntry) :
    ∃ rec : PerfRecord,
      alGet (updatePerformanceMapWithEntry st e).performanceMap
          (buildPerformanceKey e.wordId e.formatId) = some rec ∧
      (updatePerformanceMapWithEntry st e).reviewSchedule =
        (scheduleMasteryReview st e.wordId e.formatId (isTupleMastered (some rec))).reviewSchedule := by
  refine ⟨(fun existing =>
      { existing with
          attempts := existing.attempts + 1,
          correct := if e.result = "correct" then existing.correct + 1 else existing.correct,
          incorrect := if e.result = "correct" then existing.incorrect else existing.incorrect + 1,
          streak := if e.result = "correct" then max (existing.streak + 1) 1
                    else min (existing.streak - 1) (-1),
          lastAttempt := some e.timestamp,
          recent := updateRecentResults existing.recent e.result })
      ((alGet st.performanceMap (buildPerformanceKey e.wordId e.formatId)).getD emptyPerfRecord),
    ?_, ?_⟩
  · rw [show (updatePerformanceMapWithEntry st e).performanceMap =
        alSet st.performanceMap (buildPerformanceKey e.wordId e.formatId) _ from rfl,
      alGet_alSet, if_pos rfl]
  · rfl

/-- C7 counterexample: on the fixture state with an empty review-schedule
map, recording a single incorrect attempt on a fresh (hence not mastered)
tuple does create a review-schedule entry for that tuple — the scheduler
is invoked even though the tuple is not mastered, contradicting the claim
that the map is left unchanged. -/
theorem claim_C7_counterexample :
    alGet fixtureState.reviewSchedule "dog::letter_to_image" = none ∧
    isTupleMastered (alGet (updatePerformanceMapWithEntry fixtureState
      (fixtureEntry "incorrect")).performanceMap "dog::letter_to_image") = false ∧
    alGet (updatePerformanceMapWithEntry fixtureState
      (fixtureEntry "incorrect")).reviewSchedule "dog::letter_to_image" =
      some { intervalIndex := 0, nextReview := 1000 } := by
  have hrec : alGet (updatePerformanceMapWithEntry fixtureState
      (fixtureEntry "incorrect")).performanceMap "dog::letter_to_image" =
      some { attempts := 1, correct := 0, incorrect := 1, streak := -1,
             lastAttempt := some "2026-01-01T00:00:00.000Z", recent := ["incorrect"] } := by
    rfl
  have hm : isTupleMastered (alGet (updatePerformanceMapWithEntry fixtureState
      (fixtureEntry "incorrect")).performanceMap "dog::letter_to_image") = false := by
    rw [hrec, isTupleMastered_some]
    decide
  refine ⟨rfl, hm, ?_⟩
  obtain ⟨rec, hrec2, hsched⟩ :=
    updatePerformanceMapWithEntry_review_split fixtureState (fixtureEntry "incorrect")
  have hrecEq := Option.some.inj (hrec2.symm.trans hrec)
  have hkey : buildPerformanceKey (fixtureEntry "incorrect").wordId
      (fixtureEntry "incorrect").formatId = "dog::letter_to_image" := rfl
  rw [hsched, show ("dog::letter_to_image" : String) =
      buildPerformanceKey (fixtureEntry "incorrect").wordId (fixtureEntry "incorrect").formatId
    from rfl, scheduleMasteryReview_lookup, hrecEq, isTupleMastered_some]
  decide

/-- C7 (amended): `scheduleMasteryReview` is invoked on every recorded
attempt regardless of mastery, so after `updatePerformanceMapWithEntry`
the review-schedule map always holds an entry for the tuple; when the
tuple had no entry and its updated record is not mastered, the created
entry has intervalIndex 0 and nextReview equal to the current time (the
interval index is regressed with a floor of 0, not left untouched). -/
theorem claim_C7_amended (st : AppState) (e : HistoryEntry) :
    (alGet (updatePerformanceMapWithEntry st e).reviewSchedule
      (buildPerformanceKey e.wordId e.formatId)).isSome = true ∧
    (alGet st.reviewSchedule (buildPerformanceKey e.wordId e.formatId) = none →
     isTupleMastered (alGet (updatePerformanceMapWithEntry st e).performanceMap
       (buildPerformanceKey e.wordId e.formatId)) = false →
     alGet (updatePerformanceMapWithEntry st e).reviewSchedule
       (buildPerformanceKey e.wordId e.formatId) =
       some { intervalIndex := 0, nextReview := st.now }) := by
  obtain ⟨rec, hrec, hsched⟩ := updatePerformanceMapWithEntry_review_split st e
  constructor
  · rw [hsched, scheduleMasteryReview_lookup]
    rfl
  · intro hnone hm
    rw [hrec] at hm
    rw [hsched, scheduleMasteryReview_lookup, hnone, hm]
    simp [clampNat, REVIEW_INTERVALS]

/-- Witness for C7 (amended) on the fixture state: the non-mastered first
incorrect attempt creates the interval-0 entry timestamped now. -/
theorem claim_C7_witness :
    alGet (updatePerformanceMapWithEntry fixtureState
      (fixtureEntry "incorrect")).reviewSchedule
      (buildPerformanceKey (fixtureEntry "incorrect").wordId
        (fixtureEntry "incorrect").formatId) =
      some { intervalIndex := 0, nextReview := fixtureState.now } :=
  (claim_C7_amended fixtureState (fixtureEntry "incorrect")).2 rfl
    (by rw [show alGet (updatePerformanceMapWithEntry fixtureState
          (fixtureEntry "incorrect")).performanceMap
          (buildPerformanceKey (fixtureEntry "incorrect").wordId
            (fixtureEntry "incorrect").formatId) =
          some { attempts := 1, correct := 0, incorrect := 1, streak := -1,
                 lastAttempt := some "2026-01-01T00:00:00.000Z", recent := ["incorrect"] }
        from rfl, isTupleMastered_some]
        decide)

theorem floor_two_option_count (st : AppState) (wordId formatId : String)
    (h : 2 ≤ (alGet st.wordOptionFloor wordId).getD 1) :
    2 ≤ getOptionCountForTuple st wordId formatId := by
  unfold getOptionCountForTuple clampInt
  cases alGet st.optionStateMap (buildPerformanceKey wordId formatId) <;>
    dsimp only <;> omega

/-- C10: rendering an exercise whose materialized option count is at most
1 raises the word's persisted option floor to at least 2 (a floor already
at 2 or above is left untouched by this path), and consequently
`getOptionCountForTuple` returns at least 2 for every format of that word
in the resulting state — and still does after any further sequence of
recorded attempts, which never lower the floor. -/
theorem claim_C10_floor_promotion (st : AppState) (e : Exercise)
    (h : e.optionCount ≤ 1) :
    2 ≤ (alGet (handleSingleOptionPromotion st (some e)).wordOptionFloor e.word.id).getD 1 ∧
    (∀ formatId, 2 ≤ getOptionCountForTuple (handleSingleOptionPromotion st (some e))
      e.word.id formatId) ∧
    (2 ≤ (alGet st.wordOptionFloor e.word.id).getD 1 →
      handleSingleOptionPromotion st (some e) = st) ∧
    (∀ (attempts : List AttemptArgs) (formatId : String),
      2 ≤ getOptionCountForTuple (attempts.foldl recordAttempt
        (handleSingleOptionPromotion st (some e))) e.word.id formatId) := by
  have hnot : ¬ (1 < e.optionCount) := by omega
  have hfloor : 2 ≤ (alGet (handleSingleOptionPromotion st (some e)).wordOptionFloor
      e.word.id).getD 1 := by
    simp only [handleSingleOptionPromotion, if_neg hnot, promoteWordFloor]
    by_cases hc : (2 : Int) ≤ (alGet st.wordOptionFloor e.word.id).getD 1
    · rw [if_pos hc]
      exact hc
    · rw [if_neg hc]
      dsimp only
      rw [alGet_alSet, if_pos rfl]
      simp
  refine ⟨hfloor, ?_, ?_, ?_⟩
  · intro formatId
    exact floor_two_option_count _ _ _ hfloor
  · intro hc
    simp only [handleSingleOptionPromotion, if_neg hnot, promoteWordFloor, if_pos hc]
  · intro attempts formatId
    apply floor_two_option_count
    rw [foldl_recordAttempt_wordOptionFloor]
    exact hfloor

/-- Witness for C10: a one-option exercise on the fixture state pushes the
floor of `dog` to 2, so its letter drill then offers at least 2 options. -/
theorem claim_C10_witness :
    2 ≤ getOptionCountForTuple (handleSingleOptionPromotion fixtureState
      (some (createExercise fixtureState (fixtureWord "dog" "d") letterImageFormat)))
      (fixtureWord "dog" "d").id "letter_to_image" :=
  (claim_C10_floor_promotion fixtureState
    (createExercise fixtureState (fixtureWord "dog" "d") letterImageFormat)
    (by decide)).2.1 "letter_to_image" 

/-- C9: when a persisted value is present but unparsable (the modelled
`JSON.parse` returns `none`, standing for the thrown SyntaxError that the
source catches), `loadHistory` reinitializes the empty history with empty
performance and option-state maps and `loadWordOptionFloor` reinitializes
the empty floor map; both are total functions of the stored value, so the
parse failure is never propagated. -/
theorem claim_C9_corrupt_state_recovery (st : AppState) (raw : String)
    (parseJson : String → Option Json) (h : parseJson raw = none) :
    loadHistory st (some raw) parseJson =
      { st with history := [], performanceMap := [], optionStateMap := [] } ∧
    loadWordOptionFloor st (some raw) parseJson = { st with wordOptionFloor := [] } := by
  constructor
  · simp only [loadHistory, h]
    rfl
  · simp only [loadWordOptionFloor, h]

/-- Witness for C9: a concrete corrupt value on the fixture state loads to
the empty defaults. -/
theorem claim_C9_witness :
    loadHistory fixtureState (some "corrupt json") (fun _ => none) =
      { fixtureState with history := [], performanceMap := [], optionStateMap := [] } ∧
    loadWordOptionFloor fixtureState (some "corrupt json") (fun _ => none) =
      { fixtureState with wordOptionFloor := [] } :=
  claim_C9_corrupt_state_recovery fixtureState "corrupt json" (fun _ => none) rfl

/-- C4: whatever permutation of the enumerated valid pairs the randomized
sort produces, a successfully built session queue never exceeds the
configured session length clamped to `[MIN_LENGTH, min MAX_LENGTH n]`
where `n` is the number of valid (word, format) pairs. -/
theorem claim_C4_queue_length (st : AppState) (sortedExercises : List Candidate)
    (q : List Exercise)
    (hperm : sortedExercises.Perm (allExercisesFor st))
    (hne : 0 < (allExercisesFor st).length)
    (hq : buildSessionQueue st sortedExercises = some q) :
    q.length ≤ clampNat st.sessionLength MIN_LENGTH
      (min MAX_LENGTH (allExercisesFor st).length) := by
  rw [buildSessionQueue] at hq
  rw [if_neg (by omega)] at hq
  obtain rfl := Option.some.inj hq.symm
  calc (List.take (clampNat st.sessionLength MIN_LENGTH
          (min MAX_LENGTH sortedExercises.length)) _).length
      ≤ clampNat st.sessionLength MIN_LENGTH (min MAX_LENGTH sortedExercises.length) :=
        List.length_take_le _ _
    _ = clampNat st.sessionLength MIN_LENGTH (min MAX_LENGTH (allExercisesFor st).length) := by
        rw [hperm.length_eq]

/-- Witness for C4: the fixture state (five words, one format) with the
identity permutation yields a queue of at most the clamped length. -/
theorem claim_C4_witness :
    ((buildSessionQueue fixtureState (allExercisesFor fixtureState)).getD []).length ≤
      clampNat fixtureState.sessionLength MIN_LENGTH
        (min MAX_LENGTH (allExercisesFor fixtureState).length) :=
  claim_C4_queue_length fixtureState (allExercisesFor fixtureState) _
    (List.Perm.refl _) (by decide) (by rfl)

/-- C5 counterexample: on the fixture state the available letters are
exactly {a, b, c, d, e} and the fresh `dog` tuple's option count is 1,
which is in the allowed 1–4 range; with that option count (and the
identity shuffle, a legitimate permutation) the letter-drill builder
returns a single option, not a set of exactly 4 — the 4-option set only
materializes when the requested option count is 4. -/
theorem claim_C5_counterexample :
    getAvailableLetters fixtureState = ['a', 'b', 'c', 'd', 'e'] ∧
    normalizeLetter (fixtureWord "dog" "d").initialLetter = some 'd' ∧
    getOptionCountForTuple fixtureState "dog" "letter_to_image" = 1 ∧
    (buildLetterOptions fixtureState id id id (fixtureWord "dog" "d") 1).isSome = true ∧
    ¬ ((buildLetterOptions fixtureState id id id (fixtureWord "dog" "d") 1).getD []).length = 4 := by
  decide

/-- C5 (amended): for every word normalizing to target letter d and every
permutation-shuffle, when the available letters are {a, b, c, d, e} the
letter-drill builder returns exactly `clamp(optionCount, 1, 4)` distinct
letter options containing d exactly once, with d marked correct and every
distractor a non-d letter; the full 4-option set appears exactly when the
effective option count is 4. -/
theorem claim_C5_letter_options (st : AppState)
    (shuffleAvail shuffleFallback shuffleFinal : List Char → List Char)
    (word : Word) (optionCount : Nat)
    (hAvail : ∀ l, (shuffleAvail l).Perm l)
    (hFinal : ∀ l, (shuffleFinal l).Perm l)
    (hword : normalizeLetter word.initialLetter = some 'd')
    (hletters : (getAvailableLetters st).Perm ['a', 'b', 'c', 'd', 'e']) :
    ∃ opts, buildLetterOptions st shuffleAvail shuffleFallback shuffleFinal word optionCount =
        some opts ∧
      opts.length = clampNat optionCount 1 4 ∧
      (opts.map (fun o => o.letterValue)).Nodup ∧
      opts.countP (fun o => o.letterValue == 'd') = 1 ∧
      (∀ o ∈ opts, o.isCorrect = true ↔ o.letterValue = 'd') := by
  simp only [buildLetterOptions, hword]
  have hPa : (shuffleAvail ((getAvailableLetters st).filter
      (fun letter => letter ≠ 'd'))).Perm ['a', 'b', 'c', 'e'] := by
    refine (hAvail _).trans ?_
    have := hletters.filter (fun letter => decide (letter ≠ 'd'))
    simpa using this
  have hlen : (shuffleAvail ((getAvailableLetters st).filter
      (fun letter => letter ≠ 'd'))).length = 4 := by
    rw [hPa.length_eq]
    rfl
  have hnd : (shuffleAvail ((getAvailableLetters st).filter
      (fun letter => letter ≠ 'd'))).Nodup := hPa.nodup_iff.mpr (by decide)
  have hdm : 'd' ∉ shuffleAvail ((getAvailableLetters st).filter
      (fun letter => letter ≠ 'd')) := fun hmem => by
    have := hPa.mem_iff.mp hmem
    exact absurd this (by decide)
  have hd3len : ((shuffleAvail ((getAvailableLetters st).filter
      (fun letter => letter ≠ 'd'))).take 3).length = 3 := by
    rw [List.length_take, hlen]
    omega
  have hd3nd : ((shuffleAvail ((getAvailableLetters st).filter
      (fun letter => letter ≠ 'd'))).take 3).Nodup :=
    (List.take_sublist 3 _).nodup hnd
  have hd3d : 'd' ∉ (shuffleAvail ((getAvailableLetters st).filter
      (fun letter => letter ≠ 'd'))).take 3 :=
    fun hm => hdm (List.take_subset _ _ hm)
  rw [if_neg (by omega)]
  have hfill : fillLetterDistractors 'd' 3 ((shuffleAvail ((getAvailableLetters st).filter
      (fun letter => letter ≠ 'd'))).take 3) =
      (shuffleAvail ((getAvailableLetters st).filter
        (fun letter => letter ≠ 'd'))).take 3 := by
    rw [fillLetterDistractors]
    rw [if_pos (by omega)]
  rw [hfill]
  have ht1 : 1 ≤ clampNat optionCount 1 4 := by
    unfold clampNat
    omega
  have ht4 : clampNat optionCount 1 4 ≤ 4 := by
    unfold clampNat
    omega
  have htail_len : (((shuffleAvail ((getAvailableLetters st).filter
      (fun letter => letter ≠ 'd'))).take 3).take (clampNat optionCount 1 4 - 1)).length =
      clampNat optionCount 1 4 - 1 := by
    rw [List.length_take, hd3len]
    omega
  have htail_nd : (((shuffleAvail ((getAvailableLetters st).filter
      (fun letter => letter ≠ 'd'))).take 3).take (clampNat optionCount 1 4 - 1)).Nodup :=
    (List.take_sublist _ _).nodup hd3nd
  have htail_d : 'd' ∉ ((shuffleAvail ((getAvailableLetters st).filter
      (fun letter => letter ≠ 'd'))).take 3).take (clampNat optionCount 1 4 - 1) :=
    fun hm => hd3d (List.take_subset _ _ hm)
  have hPf := hFinal ('d' :: ((shuffleAvail ((getAvailableLetters st).filter
      (fun letter => letter ≠ 'd'))).take 3).take (clampNat optionCount 1 4 - 1))
  refine ⟨_, rfl, ?_, ?_, ?_, ?_⟩
  · rw [List.length_map, hPf.length_eq, List.length_cons, htail_len]
    omega
  · rw [List.map_map]
    have hmapid : ((fun o : LetterOption => o.letterValue) ∘ (fun letter =>
        ({ optionId := "letter-".push letter, label := letter.toUpper.toString,
           letterValue := letter, isCorrect := decide (letter = 'd') } : LetterOption))) =
        fun letter => letter := rfl
    rw [hmapid, List.map_id']
    exact hPf.nodup_iff.mpr (List.nodup_cons.mpr ⟨htail_d, htail_nd⟩)
  · rw [List.countP_map]
    have hcomp : ((fun o : LetterOption => o.letterValue == 'd') ∘ (fun letter =>
        ({ optionId := "letter-".push letter, label := letter.toUpper.toString,
           letterValue := letter, isCorrect := decide (letter = 'd') } : LetterOption))) =
        fun letter => letter == 'd' := rfl
    rw [hcomp, hPf.countP_eq]
    rw [List.countP_cons]
    have hzero : List.countP (fun letter => letter == 'd')
        (((shuffleAvail ((getAvailableLetters st).filter
          (fun letter => letter ≠ 'd'))).take 3).take (clampNat optionCount 1 4 - 1)) = 0 := by
      rw [List.countP_eq_zero]
      intro a ha hbeq
      exact htail_d (by rwa [show a = 'd' from by simpa using hbeq] at ha)
    rw [hzero]
    simp
  · intro o ho
    obtain ⟨l, hl, rfl⟩ := List.mem_map.mp ho
    simp

/-- Witness for C5 (amended) at the fixture state with identity shuffles
and option count 4: the builder returns 4 distinct options around d. -/
theorem claim_C5_witness :
    ∃ opts, buildLetterOptions fixtureState id id id (fixtureWord "dog" "d") 4 = some opts ∧
      opts.length = clampNat 4 1 4 ∧
      (opts.map (fun o => o.letterValue)).Nodup ∧
      opts.countP (fun o => o.letterValue == 'd') = 1 ∧
      (∀ o ∈ opts, o.isCorrect = true ↔ o.letterValue = 'd') :=
  claim_C5_letter_options fixtureState id id id (fixtureWord "dog" "d") 4
    (fun l => List.Perm.refl l) (fun l => List.Perm.refl l) (by decide) (by decide)
